import Mathlib

/-
Verification of the raw-packet relay core of the micro:bit mesh extension
(src/mesh.cpp and src/receiver.cpp), shallowly embedded in Lean 4.

The embedding passes state explicitly.  Global state touched by the C++
functions, together with the observable boundary to the radio subsystem, is
gathered in one record:
  - lastPacket, hasNewPacket : the globals of receiver.cpp (the ReceiveSlot).
  - radioState : the link-layer boundary: the hardware receive queue drained
    by datagram.recv, a log of the payloads handed to the outbound send
    path, and the enabled flag.
  - eventBusPresent, listeners : the event dispatcher boundary used by
    startRawReceiver.
Each C++ function becomes a state transformer on this record.
-/

namespace MicrobitMesh

/-- A raw packet: a byte sequence with explicit length (the list length).
Content is opaque to this layer, so bytes are just naturals. -/
abbrev Packet := List Nat

/-- One call into the link-layer outbound send path: the payload bytes handed
over, and whether the datagram (framed) service was used for the call
(uBit.radio.datagram.send) as opposed to the unframed uBit.radio.send. -/
structure TxRecord where
  payload : Packet
  framed : Bool
deriving Repr, DecidableEq

/-- The radio subsystem boundary visible to the core: the hardware receive
queue, the log of outbound send calls, and the enabled flag. -/
structure RadioState where
  enabled : Bool
  rxQueue : List Packet
  txLog : List TxRecord
deriving Repr, DecidableEq

/-- One registration on the process-wide event dispatcher:
listen(sourceId, eventId, handler) in startRawReceiver. -/
structure Listener where
  sourceId : Nat
  eventId : Nat
deriving Repr, DecidableEq

/-- The whole state the two source files can observe or mutate. -/
structure CoreState where
  radioState : RadioState
  lastPacket : Packet
  hasNewPacket : Bool
  eventBusPresent : Bool
  listeners : List Listener
deriving Repr, DecidableEq

/-- The (source, event) identifiers used in receiver.cpp when registering the
handler; their concrete values are irrelevant to every claim. -/
def radioSourceId : Nat := 29

/-- Event identifier of the datagram-received event. -/
def datagramEventId : Nat := 1

/-- uBit.radio.datagram.recv(): drains one datagram from the hardware receive
queue, returning an empty buffer when nothing is queued. -/
def datagramRecv (r : RadioState) : Packet × RadioState :=
  match r.rxQueue with
  | [] => ([], r)
  | p :: rest => (p, { r with rxQueue := rest })

/-- receiver.cpp, onRadioEvent: pulls one datagram from the hardware queue
into lastPacket and sets hasNewPacket, unconditionally. -/
def onRadioEvent (s : CoreState) : CoreState :=
  let pr := datagramRecv s.radioState
  { s with radioState := pr.2, lastPacket := pr.1, hasNewPacket := true }

/-- receiver.cpp, startRawReceiver: enables the radio, then registers
onRadioEvent for (radioSourceId, datagramEventId) provided the default event
bus exists. -/
def startRawReceiver (s : CoreState) : CoreState :=
  let s1 : CoreState := { s with radioState := { s.radioState with enabled := true } }
  if s1.eventBusPresent then
    { s1 with listeners := s1.listeners ++ [⟨radioSourceId, datagramEventId⟩] }
  else
    s1

/-- mesh.cpp, sendRawPacket: a null buffer is a silent no-op; otherwise the
bytes are copied (ManagedBuffer buf(data)) and handed to
uBit.radio.datagram.send, which is the framed send path. -/
def sendRawPacket (data : Option Packet) (s : CoreState) : CoreState :=
  match data with
  | none => s
  | some d =>
    { s with radioState :=
        { s.radioState with txLog := s.radioState.txLog ++ [⟨d, true⟩] } }

/-- receiver.cpp, getLastRawPacket: returns mkBuffer(NULL, 0) when
hasNewPacket is false, else a copy of lastPacket; the body assigns to no
global, so the state component of the result is the input state. -/
def getLastRawPacket (s : CoreState) : Packet × CoreState :=
  if s.hasNewPacket then (s.lastPacket, s) else ([], s)

/-- Process start: the ManagedBuffer global default-initialises empty and
hasNewPacket = false; nothing sent, nothing queued, nothing registered. -/
def initState : CoreState :=
  { radioState := { enabled := false, rxQueue := [], txLog := [] }
  , lastPacket := []
  , hasNewPacket := false
  , eventBusPresent := true
  , listeners := [] }

/-- Convenience: the initial state with a given hardware receive queue. -/
def stateWithQueue (q : List Packet) : CoreState :=
  { initState with radioState := { initState.radioState with rxQueue := q } }

/-- One invocation of any operation of the core. -/
inductive Op where
  | poll : Op
  | sendOp : Option Packet → Op
  | startOp : Op
  | callback : Op
deriving Repr, DecidableEq

/-- Effect of one operation on the state. -/
def applyOp (op : Op) (s : CoreState) : CoreState :=
  match op with
  | .poll => (getLastRawPacket s).2
  | .sendOp d => sendRawPacket d s
  | .startOp => startRawReceiver s
  | .callback => onRadioEvent s

/-- Effect of a sequence of operations, applied left to right. -/
def applyOps (ops : List Op) (s : CoreState) : CoreState :=
  ops.foldl (fun s op => applyOp op s) s

/-- Claim C1: after exactly one firing of the event callback, which drains the
datagram c from the hardware queue into the slot and sets pending, a call to
getLastRawPacket returns c byte-for-byte, with the same length. -/
theorem getLastRawPacket_after_one_callback (s : CoreState) (c : Packet)
    (rest : List Packet) (h : s.radioState.rxQueue = c :: rest) :
    (getLastRawPacket (onRadioEvent s)).1 = c ∧
    (getLastRawPacket (onRadioEvent s)).1.length = c.length := by
  constructor
  · simp [getLastRawPacket, onRadioEvent, datagramRecv, h]
  · simp [getLastRawPacket, onRadioEvent, datagramRecv, h]

/-- Witness for C1 at the concrete packet [1, 2, 3]. -/
theorem getLastRawPacket_after_one_callback_witness :
    (stateWithQueue [[1, 2, 3]]).radioState.rxQueue = [1, 2, 3] :: [] ∧
    (getLastRawPacket (onRadioEvent (stateWithQueue [[1, 2, 3]]))).1 = [1, 2, 3] :=
  ⟨rfl,
    (getLastRawPacket_after_one_callback (stateWithQueue [[1, 2, 3]])
      [1, 2, 3] [] rfl).1⟩

/-- Claim C3: on null/absent input, sendRawPacket is a silent no-op — the
entire state (including the outbound send log) is unchanged and no error
is signalled (the function returns normally). -/
theorem sendRawPacket_none_noop (s : CoreState) :
    sendRawPacket none s = s := rfl

/-- Claim C4: whenever the pending flag is false — in particular in the
initial state before any callback has fired — getLastRawPacket returns the
zero-length packet (not an error, not null). -/
theorem getLastRawPacket_empty_when_not_pending (s : CoreState)
    (h : s.hasNewPacket = false) :
    (getLastRawPacket s).1 = [] ∧ (getLastRawPacket s).1.length = 0 := by
  simp [getLastRawPacket, h]

/-- Witness for C4 at the initial state. -/
theorem getLastRawPacket_empty_when_not_pending_witness :
    initState.hasNewPacket = false ∧ (getLastRawPacket initState).1 = [] :=
  ⟨rfl, (getLastRawPacket_empty_when_not_pending initState rfl).1⟩

/-- Claim C5: for every non-null byte sequence b, sendRawPacket hands exactly
the bytes of b — nothing added, nothing removed — to the radio's outbound
send path: the send log grows by exactly one record whose payload is b. -/
theorem sendRawPacket_preserves_bytes (s : CoreState) (b : Packet) :
    (sendRawPacket (some b) s).radioState.txLog
      = s.radioState.txLog ++ [⟨b, true⟩] := rfl

/-- Claim C9: sendRawPacket leaves the receive cache untouched: for every
input, the fields lastPacket and hasNewPacket are unchanged, and the send
result does not depend on them (it neither reads nor writes them). -/
theorem sendRawPacket_preserves_receive_slot (d : Option Packet)
    (s : CoreState) (p : Packet) (b : Bool) :
    (sendRawPacket d s).lastPacket = s.lastPacket ∧
    (sendRawPacket d s).hasNewPacket = s.hasNewPacket ∧
    sendRawPacket d { s with lastPacket := p, hasNewPacket := b }
      = { sendRawPacket d s with lastPacket := p, hasNewPacket := b } := by
  cases d <;> exact ⟨rfl, rfl, rfl⟩

/-- Claim C2: if the callback fires twice in succession with packets a then b
and no poll in between, a subsequent poll observes b only, and a is
unrecoverable: the final state is identical to the one reached had any other
packet a' arrived first (last-write-wins, no queueing). -/
theorem receive_cache_last_write_wins (s : CoreState) (a b : Packet)
    (rest : List Packet) (h : s.radioState.rxQueue = a :: b :: rest) :
    (getLastRawPacket (onRadioEvent (onRadioEvent s))).1 = b ∧
    ∀ a' : Packet,
      onRadioEvent (onRadioEvent
        { s with radioState := { s.radioState with rxQueue := a' :: b :: rest } })
        = onRadioEvent (onRadioEvent s) := by
  constructor
  · simp [getLastRawPacket, onRadioEvent, datagramRecv, h]
  · intro a'
    simp [onRadioEvent, datagramRecv, h]

/-- Witness for C2 on the spec's scenario: packets [170] then [187, 204]
arrive before any poll; the poll observes [187, 204]. -/
theorem receive_cache_last_write_wins_witness :
    (stateWithQueue [[170], [187, 204]]).radioState.rxQueue
      = [170] :: [187, 204] :: [] ∧
    (getLastRawPacket (onRadioEvent (onRadioEvent
        (stateWithQueue [[170], [187, 204]])))).1 = [187, 204] :=
  ⟨rfl,
    (receive_cache_last_write_wins (stateWithQueue [[170], [187, 204]])
      [170] [187, 204] [] rfl).1⟩

/-- Counterexample to claim C6: no invocation of sendRawPacket ever performs a
raw (unframed) send — every record it adds to the outbound log is framed, so
the transmit path does not support two selectable send policies. -/
theorem no_raw_send_path_counterexample :
    ¬ ∃ (d : Option Packet) (s : CoreState) (r : TxRecord),
        r ∈ (sendRawPacket d s).radioState.txLog ∧
        r ∉ s.radioState.txLog ∧ r.framed = false := by
  rintro ⟨d, s, r, hmem, hnew, hframed⟩
  cases d with
  | none => exact hnew hmem
  | some b =>
    simp [sendRawPacket] at hmem
    rcases hmem with hold | hnewrec
    · exact hnew hold
    · rw [hnewrec] at hframed
      simp at hframed

/-- Claim C6 as amended: the transmit path implements exactly one send policy,
the framed send through the datagram service; the raw unframed send is only
mentioned in a comment and is not implemented or selectable, so every record
a send adds to the outbound log is framed. -/
theorem sendRawPacket_always_framed (d : Option Packet) (s : CoreState)
    (r : TxRecord) (hmem : r ∈ (sendRawPacket d s).radioState.txLog) :
    r ∈ s.radioState.txLog ∨ r.framed = true := by
  cases d with
  | none => exact Or.inl hmem
  | some b =>
    simp [sendRawPacket] at hmem
    rcases hmem with hold | hnewrec
    · exact Or.inl hold
    · right
      rw [hnewrec]

/-- Witness for the amended C6 at the concrete payload [1]. -/
theorem sendRawPacket_always_framed_witness :
    (⟨[1], true⟩ : TxRecord) ∈ initState.radioState.txLog ∨
      (⟨[1], true⟩ : TxRecord).framed = true :=
  sendRawPacket_always_framed (some [1]) initState ⟨[1], true⟩
    (by simp [sendRawPacket, initState])

/-- Claim C7: a successful read does not clear the pending flag: the poll
leaves the state unchanged, pending stays true, and a repeated poll with no
intervening callback returns the same packet. -/
theorem getLastRawPacket_idempotent (s : CoreState)
    (h : s.hasNewPacket = true) :
    (getLastRawPacket s).2 = s ∧
    (getLastRawPacket s).2.hasNewPacket = true ∧
    (getLastRawPacket (getLastRawPacket s).2).1 = (getLastRawPacket s).1 := by
  refine ⟨?_, ?_, ?_⟩ <;> simp [getLastRawPacket, h]

/-- Witness for C7 after one arrival of the packet [5]. -/
theorem getLastRawPacket_idempotent_witness :
    (onRadioEvent (stateWithQueue [[5]])).hasNewPacket = true ∧
    (getLastRawPacket (onRadioEvent (stateWithQueue [[5]]))).2
      = onRadioEvent (stateWithQueue [[5]]) :=
  ⟨rfl, (getLastRawPacket_idempotent (onRadioEvent (stateWithQueue [[5]])) rfl).1⟩

/-- Claim C8: after the callback delivers a zero-length datagram, the poll
result equals the poll result when nothing has arrived at all — both are the
zero-length packet, so the caller cannot tell the two cases apart. -/
theorem empty_packet_indistinguishable (s : CoreState) (rest : List Packet)
    (h : s.radioState.rxQueue = [] :: rest) :
    (getLastRawPacket (onRadioEvent s)).1 = (getLastRawPacket initState).1 ∧
    (getLastRawPacket (onRadioEvent s)).1 = [] := by
  constructor
  · simp [getLastRawPacket, onRadioEvent, datagramRecv, initState, h]
  · simp [getLastRawPacket, onRadioEvent, datagramRecv, h]

/-- Witness for C8 with a zero-length datagram at the head of the queue. -/
theorem empty_packet_indistinguishable_witness :
    (stateWithQueue [[]]).radioState.rxQueue = [] :: [] ∧
    (getLastRawPacket (onRadioEvent (stateWithQueue [[]]))).1
      = (getLastRawPacket initState).1 :=
  ⟨rfl, (empty_packet_indistinguishable (stateWithQueue [[]]) [] rfl).1⟩

/-- Claim C10: once the pending flag is true, no sequence of operations of the
core — polls, sends, setup calls or further callback firings — ever resets it
to false: the receive cache never returns to the EMPTY state. -/
theorem hasNewPacket_never_cleared (ops : List Op) (s : CoreState)
    (h : s.hasNewPacket = true) :
    (applyOps ops s).hasNewPacket = true := by
  induction ops generalizing s with
  | nil => exact h
  | cons op ops ih =>
    apply ih
    cases op with
    | poll => simp [applyOp, getLastRawPacket, h]
    | sendOp d => cases d <;> simp [applyOp, sendRawPacket, h]
    | startOp =>
      simp only [applyOp, startRawReceiver]
      split <;> simp [h]
    | callback => simp [applyOp, onRadioEvent, h]

/-- Witness for C10: after the first arrival, a poll, a send, a second setup
call and another callback all leave the flag set. -/
theorem hasNewPacket_never_cleared_witness :
    (onRadioEvent (stateWithQueue [[7]])).hasNewPacket = true ∧
    (applyOps [Op.poll, Op.sendOp (some [1]), Op.startOp, Op.callback]
        (onRadioEvent (stateWithQueue [[7]]))).hasNewPacket = true :=
  ⟨rfl,
    hasNewPacket_never_cleared [Op.poll, Op.sendOp (some [1]), Op.startOp, Op.callback]
      (onRadioEvent (stateWithQueue [[7]])) rfl⟩

end MicrobitMesh
